import Mathlib

/-!
Shallow embedding of the doctor-appointment service (`src/main.py`).

The persistence store is modelled as an explicit `DB` value; each FastAPI
route handler becomes a pure function from its request payload, the store,
and (where the handler declares a `get_current_user` dependency) the
authenticated caller, to `Except Err DB` mirroring the handler's
`HTTPException` raises and commits.  `datetime.strptime` with the formats
`%Y-%m-%d`, `%H:%M:%S`, `%H:%M` is embedded following CPython's
`_strptime` regular expressions; password hashing and JWT signing are
opaque library calls and are embedded as injective encodings, per their
stated contracts.
-/

deriving instance DecidableEq for Except

namespace DocApp

/-- A calendar date as produced by `datetime.strptime(..., "%Y-%m-%d").date()`. -/
structure PDate where
  year : Nat
  month : Nat
  day : Nat
deriving DecidableEq

/-- A time of day as produced by `datetime.strptime(..., "%H:%M[:%S]").time()`. -/
structure PTime where
  hour : Nat
  minute : Nat
  second : Nat
deriving DecidableEq

/-- Split a character list at every occurrence of `sep`, as Python
`str.split(sep)` does (an empty input yields one empty piece). -/
def splitChars (sep : Char) : List Char → List (List Char)
  | [] => [[]]
  | c :: cs =>
    let r := splitChars sep cs
    if c == sep then [] :: r
    else
      match r with
      | [] => [[c]]
      | h :: t => (c :: h) :: t

/-- String-level wrapper around `splitChars`. -/
def pySplit (sep : Char) (s : String) : List String :=
  (splitChars sep s.data).map fun l => ⟨l⟩

/-- Accumulate the decimal value of a digit run; `none` on a non-digit. -/
def digitsVal : List Char → Nat → Option Nat
  | [], acc => some acc
  | c :: cs, acc =>
    if c.isDigit then digitsVal cs (acc * 10 + (c.toNat - 48)) else none

/-- Numeric value of a nonempty all-digit string, as Python `int` reads the
groups captured by the `strptime` regular expressions. -/
def pyToNat? (s : String) : Option Nat :=
  match s.data with
  | [] => none
  | l => digitsVal l 0

/-- Length of a string in characters. -/
def pyLen (s : String) : Nat :=
  s.data.length

/-- Python `str.strip()`: drop leading and trailing whitespace. -/
def pyStrip (s : String) : String :=
  ⟨((s.data.dropWhile Char.isWhitespace).reverse.dropWhile Char.isWhitespace).reverse⟩

/-- Python `str.lower()` (the inputs of interest are ASCII). -/
def pyLower (s : String) : String :=
  ⟨s.data.map Char.toLower⟩

/-- Gregorian leap-year rule, as used by Python `datetime.date`. -/
def isLeap (y : Nat) : Bool :=
  y % 4 == 0 && (y % 100 != 0 || y % 400 == 0)

/-- Number of days in a month, as validated by the `datetime.date` constructor. -/
def daysInMonth (y m : Nat) : Nat :=
  if m == 2 then (if isLeap y then 29 else 28)
  else if m == 4 || m == 6 || m == 9 || m == 11 then 30
  else 31

/-- Embedding of `datetime.strptime(s, "%Y-%m-%d").date()`.  CPython compiles
the format to the regular expression `\d\d\d\d-(1[0-2]|0[1-9]|[1-9])-(3[01]|[12]\d|0[1-9]|[1-9])`
anchored at both ends, then the `datetime.date` constructor checks the year
is at least 1 and the day fits the month.  The month and day groups accept
one OR two digits (two-digit forms allow a leading zero), which the
split-based characterisation below reproduces exactly. -/
def parseDateYMD (s : String) : Option PDate :=
  match pySplit '-' s with
  | [ys, ms, ds] =>
    match pyToNat? ys, pyToNat? ms, pyToNat? ds with
    | some y, some m, some d =>
      if pyLen ys == 4 && decide (1 ≤ pyLen ms) && pyLen ms ≤ 2 &&
         decide (1 ≤ pyLen ds) && pyLen ds ≤ 2 &&
         decide (1 ≤ y) && decide (1 ≤ m) && m ≤ 12 &&
         decide (1 ≤ d) && d ≤ 31 && d ≤ daysInMonth y m then
        some ⟨y, m, d⟩
      else none
    | _, _, _ => none
  | _ => none

/-- One numeric field of a strptime time format: one or two digits, value
bounded (`%H` bound 23, `%M`/`%S` bound 59). -/
def parseTimeField (s : String) (bound : Nat) : Option Nat :=
  match pyToNat? s with
  | some v =>
    if decide (1 ≤ pyLen s) && pyLen s ≤ 2 && v ≤ bound then some v else none
  | none => none

/-- Embedding of `datetime.strptime(s, "%H:%M:%S").time()`. -/
def parseTimeHMS (s : String) : Option PTime :=
  match pySplit ':' s with
  | [hs, ms, ss] =>
    match parseTimeField hs 23, parseTimeField ms 59, parseTimeField ss 59 with
    | some h, some m, some sec => some ⟨h, m, sec⟩
    | _, _, _ => none
  | _ => none

/-- Embedding of `datetime.strptime(s, "%H:%M").time()` (seconds default to 0). -/
def parseTimeHM (s : String) : Option PTime :=
  match pySplit ':' s with
  | [hs, ms] =>
    match parseTimeField hs 23, parseTimeField ms 59 with
    | some h, some m => some ⟨h, m, 0⟩
    | _, _ => none
  | _ => none

/-- The update handler's time parsing: try `%H:%M:%S` first, fall back to `%H:%M`. -/
def parsePyTime (s : String) : Option PTime :=
  match parseTimeHMS s with
  | some t => some t
  | none => parseTimeHM s

/-- Row of the `users` table (`class User`). -/
structure User where
  id : Nat
  name : String
  email : String
  password : String
  role : String
  specialty : Option String
  fees : Option Int
deriving DecidableEq

/-- Row of the `appointments` table (`class Appointment`). -/
structure Appointment where
  id : Nat
  date : PDate
  time : Option PTime
  status : String
  patient_id : Nat
  doctor_id : Nat
deriving DecidableEq

/-- The SQLite store: both tables plus the autoincrement counters for the
integer primary keys. -/
structure DB where
  users : List User
  appointments : List Appointment
  nextUserId : Nat
  nextApptId : Nat
deriving DecidableEq

/-- Request body of `POST /signup` (`class UserCreate`). -/
structure UserCreate where
  name : String
  email : String
  password : String
  role : String
  specialty : Option String
  fees : Option Int
deriving DecidableEq

/-- Request body of `POST /login` (`class UserLogin`). -/
structure UserLogin where
  email : String
  password : String
deriving DecidableEq

/-- Request body of `POST /appointments` (`class AppointmentCreate`). -/
structure AppointmentCreate where
  doctor_id : Nat
  date : String
deriving DecidableEq

/-- Request body of `PUT /appointments/.` (`class AppointmentUpdate`);
`time: str = None` makes the field optional. -/
structure AppointmentUpdate where
  status : String
  time : Option String
deriving DecidableEq

/-- The `HTTPException`s raised by the handlers, one constructor per raise
site, tagged with the spec's error taxonomy. -/
inductive Err where
  | emailConflict
  | doctorConflict
  | nameForbidden
  | unauthenticated
  | forbiddenRole
  | invalidDate
  | invalidTime
  | notFound
deriving DecidableEq

/-- The HTTP status code of each raise site in `src/main.py`. -/
def Err.statusCode : Err → Nat
  | .emailConflict => 400
  | .doctorConflict => 400
  | .nameForbidden => 400
  | .unauthenticated => 401
  | .forbiddenRole => 403
  | .invalidDate => 400
  | .invalidTime => 400
  | .notFound => 404

/-- Embedding of `pwd_context.hash`.  The Credential Store is an opaque
library with the contract that `verify(p, hash(q))` holds exactly when
`p = q`; an injective string encoding realises that contract. -/
def hashPw (p : String) : String :=
  "bcrypt$" ++ p

/-- Embedding of `pwd_context.verify` per the Credential Store contract. -/
def verifyPw (plain hashed : String) : Bool :=
  hashed == hashPw plain

/-- Embedding of `create_access_token`: an opaque signed string embedding
subject and role (expiry is out of scope of the claims below). -/
def create_access_token (sub role : String) : String :=
  "jwt." ++ sub ++ "." ++ role

/-- The user row inserted by the signup handler: the submitted name is
stored verbatim (not trimmed or lower-cased), the password hashed. -/
def mkUser (db : DB) (u : UserCreate) : User :=
  { id := db.nextUserId, name := u.name, email := u.email,
    password := hashPw u.password, role := u.role,
    specialty := u.specialty, fees := u.fees }

/-- Handler of `POST /signup`. -/
def signup (u : UserCreate) (db : DB) : Except Err DB :=
  if (db.users.find? fun x => x.email == u.email).isSome then
    .error .emailConflict
  else if u.role == "doctor" && (db.users.find? fun x => x.role == "doctor").isSome then
    .error .doctorConflict
  else if u.role == "doctor" && pyLower (pyStrip u.name) != "suraj" then
    .error .nameForbidden
  else
    .ok { db with users := db.users ++ [mkUser db u], nextUserId := db.nextUserId + 1 }

/-- Response body of `POST /login`. -/
structure LoginResp where
  access_token : String
  token_type : String
  role : String
  id : Nat
deriving DecidableEq

/-- Handler of `POST /login`. -/
def login (l : UserLogin) (db : DB) : Except Err LoginResp :=
  match db.users.find? fun x => x.email == l.email with
  | none => .error .unauthenticated
  | some dbUser =>
    if verifyPw l.password dbUser.password then
      .ok { access_token := create_access_token dbUser.email dbUser.role,
            token_type := "bearer", role := dbUser.role, id := dbUser.id }
    else
      .error .unauthenticated

/-- Handler of `GET /doctors`.  The route declares no authentication
dependency, so the request's optional `Authorization` header (`authHeader`)
is never read: the handler only queries the users with role doctor. -/
def get_doctors (_authHeader : Option String) (db : DB) : Except Err (List User) :=
  .ok (db.users.filter fun x => x.role == "doctor")

/-- The appointment row inserted by the booking handler. -/
def mkAppt (db : DB) (data : AppointmentCreate) (cu : User) (d : PDate) : Appointment :=
  { id := db.nextApptId, date := d, time := none, status := "pending",
    patient_id := cu.id, doctor_id := data.doctor_id }

/-- Handler of `POST /appointments`.  `cu` is the user returned by the
`get_current_user` dependency, hence a row of the users table. -/
def book_appointment (data : AppointmentCreate) (db : DB) (cu : User) : Except Err DB :=
  if cu.role != "patient" then
    .error .forbiddenRole
  else
    match parseDateYMD data.date with
    | none => .error .invalidDate
    | some d =>
      .ok { db with
              appointments := db.appointments ++ [mkAppt db data cu d],
              nextApptId := db.nextApptId + 1 }

/-- Zero-padded two-digit rendering, as in `strftime` and `isoformat`. -/
def pad2 (n : Nat) : String :=
  if n < 10 then "0" ++ toString n else toString n

/-- Zero-padded four-digit rendering of the year in `date.isoformat`. -/
def pad4 (n : Nat) : String :=
  if n < 10 then "000" ++ toString n
  else if n < 100 then "00" ++ toString n
  else if n < 1000 then "0" ++ toString n
  else toString n

/-- Embedding of `date.isoformat()`. -/
def isoformat (d : PDate) : String :=
  pad4 d.year ++ "-" ++ pad2 d.month ++ "-" ++ pad2 d.day

/-- Embedding of `time.strftime("%H:%M:%S")`. -/
def timeStr (t : PTime) : String :=
  pad2 t.hour ++ ":" ++ pad2 t.minute ++ ":" ++ pad2 t.second

/-- One JSON object of the `GET /appointments` response.  `other` is the
resolved counterparty: the doctor for a patient caller, the patient for a
doctor caller. -/
structure ApptView where
  id : Nat
  other_id : Nat
  other_name : String
  date : String
  status : String
  time : Option String
deriving DecidableEq

/-- Foreign-key resolution: `appt.doctor` / `appt.patient` relationship. -/
def findUser (db : DB) (uid : Nat) : Option User :=
  db.users.find? fun x => x.id == uid

/-- Building one response row; `none` models the `AttributeError` the
handler hits when the referenced user row does not exist
(`appt.doctor.name` on a dangling reference). -/
def viewFor (db : DB) (otherId : Nat) (a : Appointment) : Option ApptView :=
  (findUser db otherId).map fun other =>
    { id := a.id, other_id := otherId, other_name := other.name,
      date := isoformat a.date, status := a.status,
      time := a.time.map timeStr }

/-- The response-building loop of `GET /appointments`: rows are emitted in
order and the first dangling reference aborts the request. -/
def buildViews (db : DB) (pick : Appointment → Nat) : List Appointment → Option (List ApptView)
  | [] => some []
  | a :: rest =>
    match viewFor db (pick a) a with
    | none => none
    | some v =>
      match buildViews db pick rest with
      | none => none
      | some r => some (v :: r)

/-- Handler of `GET /appointments`. -/
def get_appointments (db : DB) (cu : User) : Option (List ApptView) :=
  if cu.role == "patient" then
    buildViews db (fun a => a.doctor_id) (db.appointments.filter fun a => a.patient_id == cu.id)
  else if cu.role == "doctor" then
    buildViews db (fun a => a.patient_id) (db.appointments.filter fun a => a.doctor_id == cu.id)
  else
    some []

/-- The query filter of the update handler: appointment id matches and the
appointment belongs to the calling doctor. -/
def apptMatch (aid doctorId : Nat) (a : Appointment) : Bool :=
  a.id == aid && a.doctor_id == doctorId

/-- Replace the first element satisfying `p` (the single ORM object the
handler's query returned and mutated). -/
def updateFirst (p : α → Bool) (f : α → α) : List α → List α
  | [] => []
  | x :: xs => if p x then f x :: xs else x :: updateFirst p f xs

/-- Python truthiness of `appointment_update.time`: both `None` and the
empty string are falsy, so `if appointment_update.time:` skips them. -/
def timeTruthy : Option String → Bool
  | none => false
  | some s => s != ""

/-- Handler of `PUT /appointments/.`: the status is assigned to the draft
row first, the time is parsed afterwards, and the transaction is committed
only when no exception was raised. -/
def update_appointment (aid : Nat) (upd : AppointmentUpdate) (db : DB) (cu : User) :
    Except Err DB :=
  if cu.role != "doctor" then
    .error .forbiddenRole
  else
    match db.appointments.find? (apptMatch aid cu.id) with
    | none => .error .notFound
    | some appt =>
      let draft := { appt with status := upd.status }
      if timeTruthy upd.time then
        match parsePyTime (upd.time.getD "") with
        | none => .error .invalidTime
        | some t =>
          .ok { db with
                  appointments :=
                    updateFirst (apptMatch aid cu.id)
                      (fun _ => { draft with time := some t }) db.appointments }
      else
        .ok { db with
                appointments :=
                  updateFirst (apptMatch aid cu.id) (fun _ => draft) db.appointments }

/-- Request-level semantics of the update route: `get_db` closes the
session in a `finally` block, so when the handler raises before
`db.commit()` the uncommitted draft is discarded and the store is
unchanged. -/
def runUpdate (aid : Nat) (upd : AppointmentUpdate) (db : DB) (cu : User) :
    Except Err Unit × DB :=
  match update_appointment aid upd db cu with
  | .ok db2 => (.ok (), db2)
  | .error e => (.error e, db)

/-- The default doctor row inserted by the bootstrap, with the configured
name, credentials, specialty and fee. -/
def surajRow (uid : Nat) : User :=
  { id := uid, name := "Suraj", email := "suraj@example.com",
    password := hashPw "password123", role := "doctor",
    specialty := some "General Physician", fees := some 500 }

/-- Bootstrap `init_doctor_suraj`, run at every service start: insert the
default doctor unless a doctor row named exactly "Suraj" already exists. -/
def init_doctor_suraj (db : DB) : DB :=
  if (db.users.find? fun u => u.role == "doctor" && u.name == "Suraj").isSome then
    db
  else
    { db with
      users := db.users ++ [surajRow db.nextUserId],
      nextUserId := db.nextUserId + 1 }

/-- The store after the very first service start: the bootstrap applied to
the empty database (SQLite autoincrement ids start at 1). -/
def initialDB : DB :=
  init_doctor_suraj { users := [], appointments := [], nextUserId := 1, nextApptId := 1 }

/-- One state transition of the service: a successful mutating request by
an authenticated user of the store, a login (which writes nothing), or a
service restart re-running the bootstrap.  Failed requests raise before
`db.commit()` and leave the store unchanged, so they need no transition. -/
inductive Step : DB → DB → Prop where
  | signupOk (u : UserCreate) {db db2 : DB} :
      signup u db = .ok db2 → Step db db2
  | loginNoop (l : UserLogin) {db : DB} : Step db db
  | bookOk (data : AppointmentCreate) (cu : User) {db db2 : DB} :
      cu ∈ db.users → book_appointment data db cu = .ok db2 → Step db db2
  | updateOk (aid : Nat) (upd : AppointmentUpdate) (cu : User) {db db2 : DB} :
      cu ∈ db.users → update_appointment aid upd db cu = .ok db2 → Step db db2
  | restart {db : DB} : Step db (init_doctor_suraj db)

/-- States of the store reachable from the first service start by any
interleaving of requests and restarts. -/
inductive Reachable : DB → Prop where
  | init : Reachable initialDB
  | step {db db2 : DB} : Reachable db → Step db db2 → Reachable db2

/-- Number of rows with role doctor. -/
def doctorCount (db : DB) : Nat :=
  (db.users.filter fun u => u.role == "doctor").length

/-- The user-directory invariant maintained by the service: some doctor row
named exactly "Suraj" exists, and there is at most one doctor row in all. -/
def doctorInv (db : DB) : Prop :=
  (∃ u ∈ db.users, u.role = "doctor" ∧ u.name = "Suraj") ∧ doctorCount db ≤ 1

/-- The appointment-ledger half of the referential invariant that does
hold: every appointment's patient reference resolves to a patient row. -/
def patientRefsOk (db : DB) : Prop :=
  ∀ a ∈ db.appointments, ∃ u ∈ db.users, u.id = a.patient_id ∧ u.role = "patient"

/-- The spec's own date-format rule, transcribed from its words: a
"well-formed calendar date in YYYY-MM-DD form", that is four year digits,
two month digits and two day digits separated by hyphens, naming a valid
calendar date.  This definition follows the specification text and is
compared against `parseDateYMD`, which follows the code. -/
def isYYYYMMDD (s : String) : Bool :=
  match pySplit '-' s with
  | [ys, ms, ds] =>
    (match pyToNat? ys, pyToNat? ms, pyToNat? ds with
     | some y, some m, some d =>
       pyLen ys == 4 && pyLen ms == 2 && pyLen ds == 2 &&
       decide (1 ≤ y) && decide (1 ≤ m) && m ≤ 12 &&
       decide (1 ≤ d) && d ≤ daysInMonth y m
     | _, _, _ => false)
  | _ => false

/-! ### Concrete states used by witnesses and counterexamples -/

/-- A fresh patient signup request. -/
def aliceCreate : UserCreate :=
  { name := "Alice", email := "alice@example.com", password := "pw",
    role := "patient", specialty := none, fees := none }

/-- The patient row `signup aliceCreate initialDB` inserts. -/
def aliceUser : User :=
  { id := 2, name := "Alice", email := "alice@example.com", password := hashPw "pw",
    role := "patient", specialty := none, fees := none }

/-- The store after the bootstrap and Alice's patient signup. -/
def dbAlice : DB :=
  { users := [surajRow 1, aliceUser], appointments := [], nextUserId := 3, nextApptId := 1 }

/-- An appointment whose doctor reference (999) resolves to no user row. -/
def apptDangle : Appointment :=
  { id := 1, date := ⟨2024, 3, 15⟩, time := none, status := "pending",
    patient_id := 2, doctor_id := 999 }

/-- The store after Alice books with the nonexistent doctor id 999. -/
def dbDangle : DB :=
  { users := [surajRow 1, aliceUser], appointments := [apptDangle],
    nextUserId := 3, nextApptId := 2 }

/-- The appointment Alice books with the real doctor id 1. -/
def appt1 : Appointment :=
  { id := 1, date := ⟨2024, 3, 15⟩, time := none, status := "pending",
    patient_id := 2, doctor_id := 1 }

/-- The store after Alice books with doctor id 1. -/
def dbBooked : DB :=
  { users := [surajRow 1, aliceUser], appointments := [appt1],
    nextUserId := 3, nextApptId := 2 }

/-- The store after the doctor accepts Alice's appointment without
supplying a time. -/
def dbAccepted : DB :=
  { users := [surajRow 1, aliceUser],
    appointments := [{ appt1 with status := "accepted" }],
    nextUserId := 3, nextApptId := 2 }

/-- The store after the doctor sets the status string "banana". -/
def dbBanana : DB :=
  { users := [surajRow 1, aliceUser],
    appointments := [{ appt1 with status := "banana" }],
    nextUserId := 3, nextApptId := 2 }

/-- A store holding one patient whose email is `a@b.com` and no doctor. -/
def dbBob : DB :=
  { users := [{ id := 1, name := "Bob", email := "a@b.com", password := hashPw "x",
                role := "patient", specialty := none, fees := none }],
    appointments := [], nextUserId := 2, nextApptId := 1 }

/-- A doctor signup named "alice" reusing Bob's registered email. -/
def aliceDoctorTakenEmail : UserCreate :=
  { name := "alice", email := "a@b.com", password := "pw", role := "doctor",
    specialty := none, fees := none }

/-- A doctor signup named "alice" with a fresh email. -/
def aliceDoctorFresh : UserCreate :=
  { name := "alice", email := "alice2@example.com", password := "pw", role := "doctor",
    specialty := none, fees := none }

/-- A doctor signup whose name matches the configured one up to case and
surrounding whitespace. -/
def surajSignupCreate : UserCreate :=
  { name := " SURAJ ", email := "newdoc@example.com", password := "pw", role := "doctor",
    specialty := some "Cardio", fees := some 100 }

/-- The empty store, before any service start. -/
def emptyDB : DB :=
  { users := [], appointments := [], nextUserId := 1, nextApptId := 1 }

/-! ### List helper lemmas -/

theorem find?_split {p : α → Bool} {l : List α} {a : α} (h : l.find? p = some a) :
    ∃ pre post, l = pre ++ a :: post ∧ ∀ x ∈ pre, p x = false := by
  induction l with
  | nil => simp [List.find?] at h
  | cons x xs ih =>
    by_cases hx : p x
    · rw [List.find?_cons_of_pos _ hx] at h
      obtain rfl : x = a := Option.some.inj h
      exact ⟨[], xs, rfl, by simp⟩
    · have hx2 : p x = false := by simpa using hx
      rw [List.find?_cons_of_neg _ hx] at h
      obtain ⟨pre, post, hl, hpre⟩ := ih h
      refine ⟨x :: pre, post, by simp [hl], ?_⟩
      intro y hy
      rcases List.mem_cons.mp hy with rfl | hy2
      · exact hx2
      · exact hpre y hy2

theorem updateFirst_split {p : α → Bool} {f : α → α} {a : α} (pre post : List α)
    (hpre : ∀ x ∈ pre, p x = false) (ha : p a = true) :
    updateFirst p f (pre ++ a :: post) = pre ++ f a :: post := by
  induction pre with
  | nil => simp [updateFirst, ha]
  | cons x xs ih =>
    have hx : p x = false := hpre x (List.mem_cons_self x xs)
    have ih2 := ih fun y hy => hpre y (List.mem_cons_of_mem x hy)
    simp [updateFirst, hx, ih2]

theorem mem_updateFirst {p : α → Bool} {f : α → α} {l : List α} {b : α}
    (hb : b ∈ updateFirst p f l) : b ∈ l ∨ ∃ a ∈ l, p a = true ∧ b = f a := by
  induction l with
  | nil => simp [updateFirst] at hb
  | cons x xs ih =>
    rw [updateFirst] at hb
    by_cases hx : p x
    · rw [if_pos hx] at hb
      rcases List.mem_cons.mp hb with rfl | hb2
      · exact Or.inr ⟨x, List.mem_cons_self x xs, hx, rfl⟩
      · exact Or.inl (List.mem_cons_of_mem x hb2)
    · rw [if_neg hx] at hb
      rcases List.mem_cons.mp hb with rfl | hb2
      · exact Or.inl (List.mem_cons_self b xs)
      · rcases ih hb2 with h1 | ⟨a, ha, hpa, hfa⟩
        · exact Or.inl (List.mem_cons_of_mem x h1)
        · exact Or.inr ⟨a, List.mem_cons_of_mem x ha, hpa, hfa⟩

/-! ### Destructor lemmas for the handlers -/

theorem signup_ok {u : UserCreate} {db db2 : DB} (h : signup u db = .ok db2) :
    db2 = { db with
              users := db.users ++ [mkUser db u],
              nextUserId := db.nextUserId + 1 } ∧
    db.users.find? (fun x => x.email == u.email) = none ∧
    (u.role = "doctor" → db.users.find? (fun x => x.role == "doctor") = none) := by
  unfold signup at h
  split at h
  · exact absurd h (by simp)
  · split at h
    · exact absurd h (by simp)
    · split at h
      · exact absurd h (by simp)
      · rename_i h1 h2 h3
        refine ⟨(Except.ok.injEq _ _).mp h.symm, ?_, ?_⟩
        · exact Option.not_isSome_iff_eq_none.mp h1
        · intro hrole
          rw [Bool.not_eq_true, Bool.and_eq_false_iff] at h2
          rcases h2 with h2 | h2
          · rw [hrole] at h2
            simp at h2
          · refine Option.not_isSome_iff_eq_none.mp ?_
            rw [h2]
            simp

theorem book_ok {data : AppointmentCreate} {db db2 : DB} {cu : User}
    (h : book_appointment data db cu = .ok db2) :
    cu.role = "patient" ∧
    ∃ d, parseDateYMD data.date = some d ∧
      db2 = { db with
                appointments := db.appointments ++ [mkAppt db data cu d],
                nextApptId := db.nextApptId + 1 } := by
  unfold book_appointment at h
  split at h
  · exact absurd h (by simp)
  · rename_i h1
    have hrole : cu.role = "patient" := by
      rw [Bool.not_eq_true, bne_eq_false_iff_eq] at h1
      exact h1
    refine ⟨hrole, ?_⟩
    split at h
    · exact absurd h (by simp)
    · rename_i d hd
      exact ⟨d, hd, (Except.ok.injEq _ _).mp h.symm⟩

theorem update_ok {aid : Nat} {upd : AppointmentUpdate} {db db2 : DB} {cu : User}
    (h : update_appointment aid upd db cu = .ok db2) :
    cu.role = "doctor" ∧
    ∃ appt newA,
      db.appointments.find? (apptMatch aid cu.id) = some appt ∧
      db2 = { db with
                appointments :=
                  updateFirst (apptMatch aid cu.id) (fun _ => newA) db.appointments } ∧
      newA.id = appt.id ∧ newA.date = appt.date ∧ newA.patient_id = appt.patient_id ∧
      newA.doctor_id = appt.doctor_id ∧ newA.status = upd.status ∧
      (timeTruthy upd.time = false → newA.time = appt.time) ∧
      (timeTruthy upd.time = true →
        ∃ t, parsePyTime (upd.time.getD "") = some t ∧ newA.time = some t) := by
  unfold update_appointment at h
  split at h
  · exact absurd h (by simp)
  · rename_i h1
    have hrole : cu.role = "doctor" := by
      rw [Bool.not_eq_true, bne_eq_false_iff_eq] at h1
      exact h1
    refine ⟨hrole, ?_⟩
    split at h
    · exact absurd h (by simp)
    · rename_i appt hfind
      refine ⟨appt, ?_⟩
      split at h
      · rename_i htr
        split at h
        · exact absurd h (by simp)
        · rename_i t ht
          refine ⟨_, hfind, (Except.ok.injEq _ _).mp h.symm,
            rfl, rfl, rfl, rfl, rfl, ?_, ?_⟩
          · intro hf
            rw [hf] at htr
            simp at htr
          · exact fun _ => ⟨t, ht, rfl⟩
      · rename_i htr
        rw [Bool.not_eq_true] at htr
        refine ⟨_, hfind, (Except.ok.injEq _ _).mp h.symm,
          rfl, rfl, rfl, rfl, rfl, ?_, ?_⟩
        · exact fun _ => rfl
        · intro hT
          rw [htr] at hT
          simp at hT

theorem init_doctor_dest (db : DB) :
    (init_doctor_suraj db = db ∧
      (db.users.find? fun u => u.role == "doctor" && u.name == "Suraj").isSome = true) ∨
    (init_doctor_suraj db = { db with
        users := db.users ++ [surajRow db.nextUserId],
        nextUserId := db.nextUserId + 1 } ∧
      (db.users.find? fun u => u.role == "doctor" && u.name == "Suraj") = none) := by
  unfold init_doctor_suraj
  split
  · rename_i hc
    exact Or.inl ⟨rfl, hc⟩
  · rename_i hc
    exact Or.inr ⟨rfl, Option.not_isSome_iff_eq_none.mp hc⟩

theorem find?_isSome_of_mem {p : α → Bool} {l : List α} {x : α} (hx : x ∈ l)
    (hp : p x = true) : (l.find? p).isSome = true := by
  induction l with
  | nil => simp at hx
  | cons y ys ih =>
    rcases List.mem_cons.mp hx with rfl | h2
    · rw [List.find?_cons_of_pos _ hp]
      rfl
    · by_cases hy : p y
      · rw [List.find?_cons_of_pos _ hy]
        rfl
      · rw [List.find?_cons_of_neg _ hy]
        exact ih h2

/-! ### Reachability invariants -/

theorem doctorInv_initial : doctorInv initialDB := by
  constructor
  · decide
  · decide

theorem doctorCount_of_users_eq {db db2 : DB} (h : db2.users = db.users) :
    doctorCount db2 = doctorCount db := by
  simp [doctorCount, h]

theorem doctorInv_of_users_eq {db db2 : DB} (h : db2.users = db.users)
    (hi : doctorInv db) : doctorInv db2 := by
  obtain ⟨⟨w, hw, h1, h2⟩, hc⟩ := hi
  exact ⟨⟨w, h ▸ hw, h1, h2⟩, (doctorCount_of_users_eq h) ▸ hc⟩

theorem doctorInv_step {db db2 : DB} (hs : Step db db2) (hi : doctorInv db) :
    doctorInv db2 := by
  cases hs with
  | signupOk u hok =>
    obtain ⟨hdb2, _, hdoc⟩ := signup_ok hok
    obtain ⟨⟨w, hw, hwrole, hwname⟩, hcount⟩ := hi
    by_cases hrole : u.role = "doctor"
    · have hnone := hdoc hrole
      rw [List.find?_eq_none] at hnone
      have : (w.role == "doctor") = true := by
        simp [hwrole]
      exact absurd this (hnone w hw)
    · constructor
      · refine ⟨w, ?_, hwrole, hwname⟩
        rw [hdb2]
        exact List.mem_append_left _ hw
      · have hfu : ((mkUser db u).role == "doctor") = false := by
          simp [mkUser]
          exact hrole
        rw [hdb2]
        show ((db.users ++ [mkUser db u]).filter fun x => x.role == "doctor").length ≤ 1
        rw [List.filter_append]
        simp [List.filter, hfu]
        exact hcount
  | loginNoop l => exact hi
  | bookOk data cu hmem hok =>
    obtain ⟨_, d, _, hdb2⟩ := book_ok hok
    exact doctorInv_of_users_eq (by rw [hdb2]) hi
  | updateOk aid upd cu hmem hok =>
    obtain ⟨_, appt, newA, _, hdb2, _⟩ := update_ok hok
    exact doctorInv_of_users_eq (by rw [hdb2]) hi
  | restart =>
    rcases init_doctor_dest db with ⟨heq, _⟩ | ⟨_, hnone⟩
    · rw [heq]
      exact hi
    · obtain ⟨⟨w, hw, hwrole, hwname⟩, _⟩ := hi
      rw [List.find?_eq_none] at hnone
      have : (w.role == "doctor" && w.name == "Suraj") = true := by
        rw [hwrole, hwname]
        rfl
      exact absurd this (hnone w hw)

theorem doctorInv_reachable {db : DB} (h : Reachable db) : doctorInv db := by
  induction h with
  | init => exact doctorInv_initial
  | step _ hs ih => exact doctorInv_step hs ih

/-- The bootstrap is idempotent: once some run has inserted the default
doctor row, every later run finds it and inserts nothing. -/
theorem init_doctor_suraj_idem (db : DB) :
    init_doctor_suraj (init_doctor_suraj db) = init_doctor_suraj db := by
  rcases init_doctor_dest db with ⟨heq, _⟩ | ⟨heq, _⟩
  · simp [heq]
  · rcases init_doctor_dest (init_doctor_suraj db) with ⟨heq2, _⟩ | ⟨_, hnone2⟩
    · exact heq2
    · rw [List.find?_eq_none] at hnone2
      have hmem : surajRow db.nextUserId ∈ (init_doctor_suraj db).users := by
        rw [heq]
        simp
      have hcontra := hnone2 _ hmem
      simp [surajRow] at hcontra

theorem patientRefsOk_step {db db2 : DB} (hs : Step db db2) (hi : patientRefsOk db) :
    patientRefsOk db2 := by
  cases hs with
  | signupOk u hok =>
    obtain ⟨hdb2, _, _⟩ := signup_ok hok
    intro a ha
    rw [hdb2] at ha
    obtain ⟨w, hw, h1, h2⟩ := hi a ha
    exact ⟨w, by rw [hdb2]; exact List.mem_append_left _ hw, h1, h2⟩
  | loginNoop l => exact hi
  | bookOk data cu hmem hok =>
    obtain ⟨hrole, d, _, hdb2⟩ := book_ok hok
    intro a ha
    rw [hdb2] at ha
    rcases List.mem_append.mp ha with ha1 | ha2
    · obtain ⟨w, hw, h1, h2⟩ := hi a ha1
      exact ⟨w, by rw [hdb2]; exact hw, h1, h2⟩
    · have : a = mkAppt db data cu d := by simpa using ha2
      refine ⟨cu, by rw [hdb2]; exact hmem, ?_, hrole⟩
      rw [this]
      rfl
  | updateOk aid upd cu hmem hok =>
    obtain ⟨_, appt, newA, hfind, hdb2, _, _, hpat, _⟩ := update_ok hok
    intro a ha
    rw [hdb2] at ha
    rcases mem_updateFirst ha with ha1 | ⟨b, hb, _, hba⟩
    · obtain ⟨w, hw, h1, h2⟩ := hi a ha1
      exact ⟨w, by rw [hdb2]; exact hw, h1, h2⟩
    · obtain ⟨w, hw, h1, h2⟩ := hi appt (List.mem_of_find?_eq_some hfind)
      refine ⟨w, by rw [hdb2]; exact hw, ?_, h2⟩
      rw [hba, hpat]
      exact h1
  | restart =>
    rcases init_doctor_dest db with ⟨heq, _⟩ | ⟨heq, _⟩
    · rw [heq]
      exact hi
    · intro a ha
      rw [heq] at ha
      obtain ⟨w, hw, h1, h2⟩ := hi a ha
      exact ⟨w, by rw [heq]; exact List.mem_append_left _ hw, h1, h2⟩

theorem patientRefsOk_reachable {db : DB} (h : Reachable db) : patientRefsOk db := by
  induction h with
  | init =>
    intro a ha
    simp [initialDB, init_doctor_suraj] at ha
  | step _ hs ih => exact patientRefsOk_step hs ih

/-! ### Further handler lemmas -/

theorem find?_append_none {p : α → Bool} {l1 l2 : List α} (h : l1.find? p = none) :
    (l1 ++ l2).find? p = l2.find? p := by
  induction l1 with
  | nil => simp
  | cons x xs ih =>
    by_cases hx : p x
    · rw [List.find?_cons_of_pos _ hx] at h
      exact absurd h (by simp)
    · rw [List.find?_cons_of_neg _ hx] at h
      rw [List.cons_append, List.find?_cons_of_neg _ hx]
      exact ih h

theorem hashPw_inj {a b : String} (h : hashPw a = hashPw b) : a = b := by
  unfold hashPw at h
  have hd : ("bcrypt$" ++ a).data = ("bcrypt$" ++ b).data := congrArg String.data h
  rw [String.data_append, String.data_append] at hd
  have hd2 := List.append_cancel_left hd
  cases a
  cases b
  exact congrArg String.mk hd2

theorem book_succeeds {data : AppointmentCreate} {db : DB} {cu : User} {d : PDate}
    (hrole : cu.role = "patient") (hd : parseDateYMD data.date = some d) :
    book_appointment data db cu =
      .ok { db with
              appointments := db.appointments ++ [mkAppt db data cu d],
              nextApptId := db.nextApptId + 1 } := by
  unfold book_appointment
  rw [hrole]
  simp [hd]

theorem book_invalid_date {data : AppointmentCreate} {db : DB} {cu : User}
    (hrole : cu.role = "patient") (hd : parseDateYMD data.date = none) :
    book_appointment data db cu = .error .invalidDate := by
  unfold book_appointment
  rw [hrole]
  simp [hd]

theorem update_bad_time {aid : Nat} {upd : AppointmentUpdate} {db : DB} {cu : User}
    {appt : Appointment} (hrole : cu.role = "doctor")
    (hfind : db.appointments.find? (apptMatch aid cu.id) = some appt)
    (htr : timeTruthy upd.time = true)
    (hbad : parsePyTime (upd.time.getD "") = none) :
    update_appointment aid upd db cu = .error .invalidTime := by
  unfold update_appointment
  rw [hrole]
  simp [hfind, htr, hbad]

theorem update_succeeds_some_time {aid : Nat} {upd : AppointmentUpdate} {db : DB}
    {cu : User} {appt : Appointment} {t : PTime} (hrole : cu.role = "doctor")
    (hfind : db.appointments.find? (apptMatch aid cu.id) = some appt)
    (htr : timeTruthy upd.time = true)
    (ht : parsePyTime (upd.time.getD "") = some t) :
    update_appointment aid upd db cu =
      .ok { db with
              appointments :=
                updateFirst (apptMatch aid cu.id)
                  (fun _ => { appt with status := upd.status, time := some t })
                  db.appointments } := by
  unfold update_appointment
  rw [hrole]
  simp [hfind, htr, ht]

theorem update_succeeds_no_time {aid : Nat} {upd : AppointmentUpdate} {db : DB}
    {cu : User} {appt : Appointment} (hrole : cu.role = "doctor")
    (hfind : db.appointments.find? (apptMatch aid cu.id) = some appt)
    (htr : timeTruthy upd.time = false) :
    update_appointment aid upd db cu =
      .ok { db with
              appointments :=
                updateFirst (apptMatch aid cu.id)
                  (fun _ => { appt with status := upd.status })
                  db.appointments } := by
  unfold update_appointment
  rw [hrole]
  simp [hfind, htr]

theorem update_found_not_notFound {aid : Nat} {upd : AppointmentUpdate} {db : DB}
    {cu : User} {appt : Appointment} (hrole : cu.role = "doctor")
    (hfind : db.appointments.find? (apptMatch aid cu.id) = some appt) :
    update_appointment aid upd db cu ≠ .error .notFound := by
  by_cases htr : timeTruthy upd.time = true
  · cases hbad : parsePyTime (upd.time.getD "") with
    | none =>
      rw [update_bad_time hrole hfind htr hbad]
      simp
    | some t =>
      rw [update_succeeds_some_time hrole hfind htr hbad]
      simp
  · rw [update_succeeds_no_time hrole hfind (by simpa using htr)]
    simp

theorem update_not_found {aid : Nat} {upd : AppointmentUpdate} {db : DB} {cu : User}
    (hrole : cu.role = "doctor")
    (hfind : db.appointments.find? (apptMatch aid cu.id) = none) :
    update_appointment aid upd db cu = .error .notFound := by
  unfold update_appointment
  rw [hrole]
  simp [hfind]

theorem viewFor_some {db : DB} {otherId : Nat} {a : Appointment} {v : ApptView}
    (h : viewFor db otherId a = some v) :
    v.id = a.id ∧ v.status = a.status ∧ v.time = a.time.map timeStr := by
  unfold viewFor at h
  cases hf : findUser db otherId with
  | none =>
    rw [hf] at h
    simp at h
  | some other =>
    rw [hf] at h
    have hv := Option.some.inj (by simpa using h)
    rw [← hv]
    exact ⟨rfl, rfl, rfl⟩

theorem viewFor_isSome {db : DB} {otherId : Nat} {a : Appointment} {u : User}
    (hu : u ∈ db.users) (hid : u.id = otherId) :
    (viewFor db otherId a).isSome = true := by
  have hf : (findUser db otherId).isSome = true :=
    find?_isSome_of_mem hu (by simp [hid])
  unfold viewFor
  cases hfo : findUser db otherId with
  | none =>
    rw [hfo] at hf
    simp at hf
  | some other => rfl

theorem buildViews_total {db : DB} {pick : Appointment → Nat} :
    ∀ {l : List Appointment}, (∀ a ∈ l, (viewFor db (pick a) a).isSome = true) →
      ∃ r, buildViews db pick l = some r := by
  intro l
  induction l with
  | nil => exact fun _ => ⟨[], rfl⟩
  | cons x xs ih =>
    intro h
    obtain ⟨v, hv⟩ := Option.isSome_iff_exists.mp (h x (List.mem_cons_self x xs))
    obtain ⟨r, hr⟩ := ih fun a ha => h a (List.mem_cons_of_mem x ha)
    exact ⟨v :: r, by rw [buildViews, hv, hr]⟩

theorem buildViews_mem {db : DB} {pick : Appointment → Nat} {l : List Appointment}
    {r : List ApptView} (h : buildViews db pick l = some r) {a : Appointment}
    (ha : a ∈ l) : ∃ v, viewFor db (pick a) a = some v ∧ v ∈ r := by
  induction l generalizing r with
  | nil => simp at ha
  | cons x xs ih =>
    rw [buildViews] at h
    cases hv : viewFor db (pick x) x with
    | none =>
      rw [hv] at h
      simp at h
    | some v =>
      rw [hv] at h
      cases hr : buildViews db pick xs with
      | none =>
        rw [hr] at h
        simp at h
      | some rest =>
        rw [hr] at h
        have hvr : v :: rest = r := by simpa using h
        rcases List.mem_cons.mp ha with rfl | h2
        · exact ⟨v, hv, hvr ▸ List.mem_cons_self _ _⟩
        · obtain ⟨w, hw1, hw2⟩ := ih hr h2
          exact ⟨w, hw1, hvr ▸ List.mem_cons_of_mem _ hw2⟩

/-! ### Reachability of the concrete states -/

theorem reach_dbAlice : Reachable dbAlice :=
  Reachable.step Reachable.init (Step.signupOk aliceCreate (by decide))

theorem reach_dbDangle : Reachable dbDangle :=
  Reachable.step reach_dbAlice
    (Step.bookOk ⟨999, "2024-03-15"⟩ aliceUser (by decide) (by decide))

theorem reach_dbBooked : Reachable dbBooked :=
  Reachable.step reach_dbAlice
    (Step.bookOk ⟨1, "2024-03-15"⟩ aliceUser (by decide) (by decide))

theorem reach_dbBanana : Reachable dbBanana :=
  Reachable.step reach_dbBooked
    (Step.updateOk 1 ⟨"banana", none⟩ (surajRow 1) (by decide) (by decide))

/-! ### Claim C1 -/

/-- Claim C1: in every state reachable by any sequence of signup, login,
booking and update operations interleaved with service restarts (each
restart running the bootstrap), at most one account holds role doctor; and
the bootstrap is idempotent, so restarting twice never creates two doctor
accounts named per the configured default. -/
theorem claim1_at_most_one_doctor (db : DB) (h : Reachable db) :
    doctorCount db ≤ 1 ∧
      init_doctor_suraj (init_doctor_suraj db) = init_doctor_suraj db :=
  ⟨(doctorInv_reachable h).2, init_doctor_suraj_idem db⟩

/-- Witness for C1 at the bootstrapped initial store. -/
theorem claim1_at_most_one_doctor_witness :
    doctorCount initialDB ≤ 1 ∧
      init_doctor_suraj (init_doctor_suraj initialDB) = init_doctor_suraj initialDB :=
  claim1_at_most_one_doctor initialDB Reachable.init

/-! ### Claim C2 -/

/-- Claim C2 counterexample: a reachable state (Alice books with doctor id
999 on 2024-03-15) contains an appointment whose doctor reference resolves
to no account at all — booking never validates the supplied doctor id. -/
theorem claim2_counterexample :
    Reachable dbDangle ∧
      ∃ a ∈ dbDangle.appointments,
        ∀ u ∈ dbDangle.users, ¬(u.id = a.doctor_id ∧ u.role = "doctor") :=
  ⟨reach_dbDangle, by decide⟩

/-- Claim C2 (amended): in every reachable state every appointment's
patient reference resolves to an account with role patient, but the doctor
reference is never validated — a booking by a patient succeeds for any
doctor id whatsoever, well-formed date permitting. -/
theorem claim2_amended (db : DB) (h : Reachable db) :
    patientRefsOk db ∧
    ∀ data cu d, cu.role = "patient" → parseDateYMD data.date = some d →
      book_appointment data db cu =
        .ok { db with
                appointments := db.appointments ++ [mkAppt db data cu d],
                nextApptId := db.nextApptId + 1 } :=
  ⟨patientRefsOk_reachable h, fun _ _ _ hrole hd => book_succeeds hrole hd⟩

/-- Witness for the amended C2 at a reachable state with an appointment. -/
theorem claim2_amended_witness :
    patientRefsOk dbDangle ∧
    ∀ data cu d, cu.role = "patient" → parseDateYMD data.date = some d →
      book_appointment data dbDangle cu =
        .ok { dbDangle with
                appointments := dbDangle.appointments ++ [mkAppt dbDangle data cu d],
                nextApptId := dbDangle.nextApptId + 1 } :=
  claim2_amended dbDangle reach_dbDangle

/-! ### Claim C3 -/

/-- Claim C3 counterexample: a reachable state (the doctor sets status
"banana") stores an appointment status outside pending/accepted/rejected,
because update never validates the supplied status string. -/
theorem claim3_counterexample :
    Reachable dbBanana ∧
      ∃ a ∈ dbBanana.appointments,
        a.status ≠ "pending" ∧ a.status ≠ "accepted" ∧ a.status ≠ "rejected" :=
  ⟨reach_dbBanana, by decide⟩

/-- Claim C3 (amended): booking initializes status to pending, and update
stores the supplied status string unconditionally with no membership check,
so any string can become an appointment status. -/
theorem claim3_amended :
    (∀ data db cu db2, book_appointment data db cu = .ok db2 →
      ∃ a, db2.appointments = db.appointments ++ [a] ∧ a.status = "pending") ∧
    (∀ aid upd db cu db2, update_appointment aid upd db cu = .ok db2 →
      ∃ a ∈ db2.appointments, a.id = aid ∧ a.doctor_id = cu.id ∧
        a.status = upd.status) := by
  constructor
  · intro data db cu db2 hok
    obtain ⟨_, d, _, hdb2⟩ := book_ok hok
    exact ⟨mkAppt db data cu d, by rw [hdb2], rfl⟩
  · intro aid upd db cu db2 hok
    obtain ⟨_, appt, newA, hfind, hdb2, hid, _, _, hdoc, hstatus, _, _⟩ := update_ok hok
    have hm := List.find?_some hfind
    have hmatch : appt.id = aid ∧ appt.doctor_id = cu.id := by
      simpa [apptMatch] using hm
    obtain ⟨pre, post, hl, hpre⟩ := find?_split hfind
    have hupd := updateFirst_split (f := fun _ => newA) pre post hpre hm
    refine ⟨newA, ?_, ?_, ?_, hstatus⟩
    · rw [hdb2]
      show newA ∈ updateFirst (apptMatch aid cu.id) (fun _ => newA) db.appointments
      rw [hl, hupd]
      exact List.mem_append_right _ (List.mem_cons_self _ _)
    · rw [hid]
      exact hmatch.1
    · rw [hdoc]
      exact hmatch.2

/-- Witness for the amended C3: the concrete booking is pending and the
concrete update stored the status "banana". -/
theorem claim3_amended_witness :
    (∃ a, dbDangle.appointments = dbAlice.appointments ++ [a] ∧
      a.status = "pending") ∧
    (∃ a ∈ dbBanana.appointments, a.id = 1 ∧ a.doctor_id = 1 ∧
      a.status = "banana") :=
  ⟨claim3_amended.1 ⟨999, "2024-03-15"⟩ dbAlice aliceUser dbDangle (by decide),
   claim3_amended.2 1 ⟨"banana", none⟩ dbBooked (surajRow 1) dbBanana (by decide)⟩

/-! ### Claim C4 -/

/-- Claim C4 counterexample: with no doctor account present but the email
already registered, a role=doctor signup named "alice" fails with the
email Conflict, not with Forbidden — the email check runs first. -/
theorem claim4_counterexample :
    (∀ u ∈ dbBob.users, u.role ≠ "doctor") ∧
    pyLower (pyStrip aliceDoctorTakenEmail.name) ≠ "suraj" ∧
    signup aliceDoctorTakenEmail dbBob = .error .emailConflict ∧
    signup aliceDoctorTakenEmail dbBob ≠ .error .nameForbidden :=
  ⟨by decide, by decide, by decide, by decide⟩

/-- Claim C4 (amended): for a role=doctor signup whose email is fresh and
when no doctor account exists, a name that does not equal the configured
doctor name after trimming and lowering fails with Forbidden, and a name
that does equal it succeeds and stores a doctor account. -/
theorem claim4_amended (u : UserCreate) (db : DB)
    (hfresh : db.users.find? (fun x => x.email == u.email) = none)
    (hrole : u.role = "doctor")
    (hnodoc : db.users.find? (fun x => x.role == "doctor") = none) :
    (pyLower (pyStrip u.name) ≠ "suraj" → signup u db = .error .nameForbidden) ∧
    (pyLower (pyStrip u.name) = "suraj" →
      signup u db =
        .ok { db with
                users := db.users ++ [mkUser db u],
                nextUserId := db.nextUserId + 1 } ∧
      (mkUser db u).role = "doctor") := by
  constructor
  · intro hname
    have hb : (pyLower (pyStrip u.name) != "suraj") = true := bne_iff_ne.mpr hname
    simp [signup, hfresh, hnodoc, hrole, hb]
  · intro hname
    have hb : (pyLower (pyStrip u.name) != "suraj") = false := by
      simp [hname]
    refine ⟨?_, by simp [mkUser, hrole]⟩
    simp [signup, hfresh, hnodoc, hrole, hb]

/-- Witness for the amended C4: "alice" is rejected with the name error
and " SURAJ " is accepted, both against the empty store. -/
theorem claim4_amended_witness :
    signup aliceDoctorFresh emptyDB = .error .nameForbidden ∧
    signup surajSignupCreate emptyDB =
      .ok { emptyDB with
              users := emptyDB.users ++ [mkUser emptyDB surajSignupCreate],
              nextUserId := emptyDB.nextUserId + 1 } :=
  ⟨(claim4_amended aliceDoctorFresh emptyDB rfl rfl rfl).1 (by decide),
   ((claim4_amended surajSignupCreate emptyDB rfl rfl rfl).2 (by decide)).1⟩

/-! ### Claim C5 -/

/-- Claim C5 counterexample: a GET /doctors request with no bearer token
succeeds and returns the doctor list instead of failing Unauthenticated —
the route declares no authentication dependency at all. -/
theorem claim5_counterexample :
    get_doctors none initialDB = .ok [surajRow 1] ∧
      get_doctors none initialDB ≠ .error .unauthenticated :=
  ⟨by decide, by decide⟩

/-- Claim C5 (amended): list-doctors requires no authentication: every
request, with any Authorization header or none, succeeds and returns
exactly the accounts with role doctor — in every reachable state the
single bootstrap doctor named "Suraj". -/
theorem claim5_amended (auth : Option String) (db : DB) (h : Reachable db) :
    get_doctors auth db = .ok (db.users.filter fun u => u.role == "doctor") ∧
    ∃ u, (db.users.filter fun u => u.role == "doctor") = [u] ∧
      u.role = "doctor" ∧ u.name = "Suraj" := by
  refine ⟨rfl, ?_⟩
  obtain ⟨⟨w, hw, hwrole, hwname⟩, hcount⟩ := doctorInv_reachable h
  have hwf : w ∈ db.users.filter fun u => u.role == "doctor" :=
    List.mem_filter.mpr ⟨hw, by simp [hwrole]⟩
  have hlen : (db.users.filter fun u => u.role == "doctor").length = 1 := by
    refine le_antisymm hcount ?_
    exact List.length_pos.mpr (List.ne_nil_of_mem hwf)
  obtain ⟨x, hx⟩ := List.length_eq_one.mp hlen
  have hwx : w = x := by
    rw [hx] at hwf
    simpa using hwf
  exact ⟨x, hx, hwx ▸ hwrole, hwx ▸ hwname⟩

/-- Witness for the amended C5 at the initial store without a token. -/
theorem claim5_amended_witness :
    get_doctors none initialDB =
      .ok (initialDB.users.filter fun u => u.role == "doctor") ∧
    ∃ u, (initialDB.users.filter fun u => u.role == "doctor") = [u] ∧
      u.role = "doctor" ∧ u.name = "Suraj" :=
  claim5_amended none initialDB Reachable.init

/-! ### Claim C6 -/

/-- Claim C6 counterexample: the date string "2024-3-15" is not a
well-formed YYYY-MM-DD date (one-digit month), yet booking with it
succeeds rather than failing InvalidInput, because strptime's month group
also accepts a single digit — so the claimed if-and-only-if fails. -/
theorem claim6_counterexample :
    isYYYYMMDD "2024-3-15" = false ∧
    aliceUser.role = "patient" ∧
    book_appointment ⟨1, "2024-3-15"⟩ dbAlice aliceUser =
      .ok { dbAlice with
              appointments := [mkAppt dbAlice ⟨1, "2024-3-15"⟩ aliceUser ⟨2024, 3, 15⟩],
              nextApptId := 2 } :=
  ⟨by decide, by decide, by decide⟩

/-- Claim C6 (amended): booking by a patient fails with InvalidInput
exactly when the date does not parse under strptime %Y-%m-%d (four year
digits, month and day of one or two digits, calendar-valid; a superset of
the strict YYYY-MM-DD form); on success exactly one pending appointment is
appended, with no time, the caller as patient and the parsed date, and any
successful subsequent listing for that patient reflects it. -/
theorem claim6_amended (data : AppointmentCreate) (db : DB) (cu : User)
    (hrole : cu.role = "patient") :
    (book_appointment data db cu = .error .invalidDate ↔
      parseDateYMD data.date = none) ∧
    (∀ d db2, parseDateYMD data.date = some d →
      book_appointment data db cu = .ok db2 →
      db2.appointments = db.appointments ++ [mkAppt db data cu d] ∧
      (mkAppt db data cu d).status = "pending" ∧
      (mkAppt db data cu d).time = none ∧
      (mkAppt db data cu d).patient_id = cu.id ∧
      (mkAppt db data cu d).date = d ∧
      ∀ views, get_appointments db2 cu = some views →
        ∃ v ∈ views, v.id = db.nextApptId ∧ v.status = "pending" ∧
          v.time = none) := by
  constructor
  · constructor
    · intro herr
      cases hd : parseDateYMD data.date with
      | none => rfl
      | some d =>
        rw [book_succeeds hrole hd] at herr
        exact absurd herr (by simp)
    · intro hd
      exact book_invalid_date hrole hd
  · intro d db2 hd hok
    rw [book_succeeds hrole hd] at hok
    have hdb2 : db2 = { db with
        appointments := db.appointments ++ [mkAppt db data cu d],
        nextApptId := db.nextApptId + 1 } := (Except.ok.injEq _ _).mp hok.symm
    refine ⟨by rw [hdb2], rfl, rfl, rfl, rfl, ?_⟩
    intro views hviews
    have hga : get_appointments db2 cu =
        buildViews db2 (fun a => a.doctor_id)
          (db2.appointments.filter fun a => a.patient_id == cu.id) := by
      unfold get_appointments
      rw [hrole]
      simp
    rw [hga] at hviews
    have hmemA : mkAppt db data cu d ∈
        db2.appointments.filter fun a => a.patient_id == cu.id := by
      refine List.mem_filter.mpr ⟨?_, by simp [mkAppt]⟩
      rw [hdb2]
      exact List.mem_append_right _ (List.mem_cons_self _ _)
    obtain ⟨v, hv, hvmem⟩ := buildViews_mem hviews hmemA
    obtain ⟨hvid, hvstatus, hvtime⟩ := viewFor_some hv
    exact ⟨v, hvmem, hvid, hvstatus, hvtime⟩

/-- Witness for the amended C6: "15-03-2024" is rejected and "2024-03-15"
appends the pending appointment. -/
theorem claim6_amended_witness :
    book_appointment ⟨1, "15-03-2024"⟩ dbAlice aliceUser = .error .invalidDate ∧
    dbBooked.appointments =
      dbAlice.appointments ++ [mkAppt dbAlice ⟨1, "2024-03-15"⟩ aliceUser ⟨2024, 3, 15⟩] :=
  ⟨(claim6_amended ⟨1, "15-03-2024"⟩ dbAlice aliceUser rfl).1.mpr (by decide),
   ((claim6_amended ⟨1, "2024-03-15"⟩ dbAlice aliceUser rfl).2 ⟨2024, 3, 15⟩ dbBooked
     (by decide) (by decide)).1⟩

/-! ### Claim C7 -/

/-- Claim C7: for an authenticated doctor caller, update fails NotFound
exactly when no stored appointment with the given id has that doctor as
its doctor reference; and when such an appointment exists and one of the
three statuses together with a well-formed time is supplied, the update
succeeds and a subsequent listing for that doctor reflects both the new
status and the new time. -/
theorem claim7_update_auth (aid : Nat) (upd : AppointmentUpdate) (db : DB) (cu : User)
    (hreach : Reachable db) (hmem : cu ∈ db.users) (hrole : cu.role = "doctor") :
    (update_appointment aid upd db cu = .error .notFound ↔
      ∀ a ∈ db.appointments, ¬(a.id = aid ∧ a.doctor_id = cu.id)) ∧
    ((∃ a ∈ db.appointments, a.id = aid ∧ a.doctor_id = cu.id) →
      (upd.status = "pending" ∨ upd.status = "accepted" ∨ upd.status = "rejected") →
      ∀ ts t, upd.time = some ts → parsePyTime ts = some t →
        ∃ db2 views, update_appointment aid upd db cu = .ok db2 ∧
          get_appointments db2 cu = some views ∧
          ∃ v ∈ views, v.id = aid ∧ v.status = upd.status ∧
            v.time = some (timeStr t)) := by
  constructor
  · constructor
    · intro hnf a ha hmatch2
      have hs : (db.appointments.find? (apptMatch aid cu.id)).isSome = true :=
        find?_isSome_of_mem ha (by simp [apptMatch, hmatch2.1, hmatch2.2])
      obtain ⟨appt, hfind⟩ := Option.isSome_iff_exists.mp hs
      exact update_found_not_notFound hrole hfind hnf
    · intro hall
      refine update_not_found hrole ?_
      rw [List.find?_eq_none]
      intro a ha hmatch2
      refine hall a ha ?_
      simpa [apptMatch] using hmatch2
  · rintro ⟨a, ha, haid, hadoc⟩ _hthree ts t hts ht
    have hs : (db.appointments.find? (apptMatch aid cu.id)).isSome = true :=
      find?_isSome_of_mem ha (by simp [apptMatch, haid, hadoc])
    obtain ⟨appt, hfind⟩ := Option.isSome_iff_exists.mp hs
    have hmatch2 : appt.id = aid ∧ appt.doctor_id = cu.id := by
      simpa [apptMatch] using List.find?_some hfind
    have hts2 : ts ≠ "" := by
      intro h0
      rw [h0] at ht
      exact Option.noConfusion (show (none : Option PTime) = some t from ht)
    have htr : timeTruthy upd.time = true := by
      rw [hts]
      show (ts != "") = true
      exact bne_iff_ne.mpr hts2
    have hok := update_succeeds_some_time (t := t) hrole hfind htr
      (by rw [hts]; exact ht)
    have hreach2 : Reachable { db with
        appointments :=
          updateFirst (apptMatch aid cu.id)
            (fun _ => { appt with status := upd.status, time := some t })
            db.appointments } :=
      Reachable.step hreach (Step.updateOk aid upd cu hmem hok)
    have hrefs := patientRefsOk_reachable hreach2
    refine ⟨{ db with
        appointments :=
          updateFirst (apptMatch aid cu.id)
            (fun _ => { appt with status := upd.status, time := some t })
            db.appointments }, ?_⟩
    obtain ⟨pre, post, hl, hpre⟩ := find?_split hfind
    have hupd := updateFirst_split
      (f := fun _ => { appt with status := upd.status, time := some t })
      pre post hpre (List.find?_some hfind)
    have hmemN : ({ appt with status := upd.status, time := some t } : Appointment) ∈
        updateFirst (apptMatch aid cu.id)
          (fun _ => { appt with status := upd.status, time := some t })
          db.appointments := by
      rw [hl, hupd]
      exact List.mem_append_right _ (List.mem_cons_self _ _)
    have hga : get_appointments { db with
        appointments :=
          updateFirst (apptMatch aid cu.id)
            (fun _ => { appt with status := upd.status, time := some t })
            db.appointments } cu =
        buildViews { db with
            appointments :=
              updateFirst (apptMatch aid cu.id)
                (fun _ => { appt with status := upd.status, time := some t })
                db.appointments } (fun a => a.patient_id)
          ((updateFirst (apptMatch aid cu.id)
              (fun _ => { appt with status := upd.status, time := some t })
              db.appointments).filter fun a => a.doctor_id == cu.id) := by
      unfold get_appointments
      rw [hrole]
      simp
    have htot : ∀ b ∈ (updateFirst (apptMatch aid cu.id)
        (fun _ => { appt with status := upd.status, time := some t })
        db.appointments).filter fun a => a.doctor_id == cu.id,
        (viewFor { db with
            appointments :=
              updateFirst (apptMatch aid cu.id)
                (fun _ => { appt with status := upd.status, time := some t })
                db.appointments } b.patient_id b).isSome = true := by
      intro b hb
      obtain ⟨u, hu, hu1, _⟩ := hrefs b (List.mem_of_mem_filter hb)
      exact viewFor_isSome hu hu1
    obtain ⟨views, hviews⟩ := buildViews_total htot
    refine ⟨views, hok, by rw [hga]; exact hviews, ?_⟩
    have hmemF : ({ appt with status := upd.status, time := some t } : Appointment) ∈
        (updateFirst (apptMatch aid cu.id)
          (fun _ => { appt with status := upd.status, time := some t })
          db.appointments).filter fun a => a.doctor_id == cu.id :=
      List.mem_filter.mpr ⟨hmemN, by simp [hmatch2.2]⟩
    obtain ⟨v, hv, hvmem⟩ := buildViews_mem hviews hmemF
    obtain ⟨hvid, hvstatus, hvtime⟩ := viewFor_some hv
    refine ⟨v, hvmem, ?_, hvstatus, hvtime⟩
    rw [hvid]
    exact hmatch2.1

/-- Witness for C7: the owning doctor accepts appointment 1 at 14:30 in the
booked store, and the listing reflects status and time. -/
theorem claim7_update_auth_witness :
    (update_appointment 1 ⟨"accepted", some "14:30"⟩ dbBooked (surajRow 1) =
        .error .notFound ↔
      ∀ a ∈ dbBooked.appointments, ¬(a.id = 1 ∧ a.doctor_id = (surajRow 1).id)) ∧
    ((∃ a ∈ dbBooked.appointments, a.id = 1 ∧ a.doctor_id = (surajRow 1).id) →
      ("accepted" = "pending" ∨ "accepted" = "accepted" ∨ "accepted" = "rejected") →
      ∀ ts t, (some "14:30" : Option String) = some ts → parsePyTime ts = some t →
        ∃ db2 views,
          update_appointment 1 ⟨"accepted", some "14:30"⟩ dbBooked (surajRow 1) =
            .ok db2 ∧
          get_appointments db2 (surajRow 1) = some views ∧
          ∃ v ∈ views, v.id = 1 ∧ v.status = "accepted" ∧
            v.time = some (timeStr t)) :=
  claim7_update_auth 1 ⟨"accepted", some "14:30"⟩ dbBooked (surajRow 1)
    reach_dbBooked (by decide) rfl

/-! ### Claim C8 -/

/-- Claim C8 counterexample: an empty string is a provided, malformed
newTime, yet the update succeeds with the time unchanged instead of
failing InvalidInput — Python truthiness of `appointment_update.time`
treats "" like an absent field. -/
theorem claim8_counterexample :
    parsePyTime "" = none ∧
    update_appointment 1 ⟨"accepted", some ""⟩ dbBooked (surajRow 1) =
      .ok dbAccepted ∧
    update_appointment 1 ⟨"accepted", some ""⟩ dbBooked (surajRow 1) ≠
      .error .invalidTime ∧
    (∀ a ∈ dbAccepted.appointments, a.time = none) :=
  ⟨by decide, by decide, by decide, by decide⟩

/-- Claim C8 (amended): a provided non-empty newTime is parsed as H:M:S
then H:M and a malformed non-empty newTime fails InvalidInput; an absent
or empty newTime leaves the time unchanged; and every successful update
leaves the appointment's date, patient and doctor references, every other
appointment, and the user table unchanged. -/
theorem claim8_amended (aid : Nat) (upd : AppointmentUpdate) (db : DB) (cu : User)
    (appt : Appointment) (hrole : cu.role = "doctor")
    (hfind : db.appointments.find? (apptMatch aid cu.id) = some appt) :
    (timeTruthy upd.time = true → parsePyTime (upd.time.getD "") = none →
      update_appointment aid upd db cu = .error .invalidTime) ∧
    (∀ db2, update_appointment aid upd db cu = .ok db2 →
      db2.users = db.users ∧
      ∃ pre post newA,
        db.appointments = pre ++ appt :: post ∧
        db2.appointments = pre ++ newA :: post ∧
        newA.id = appt.id ∧ newA.date = appt.date ∧
        newA.patient_id = appt.patient_id ∧ newA.doctor_id = appt.doctor_id ∧
        (timeTruthy upd.time = false → newA.time = appt.time) ∧
        (∀ t, parsePyTime (upd.time.getD "") = some t →
          timeTruthy upd.time = true → newA.time = some t)) := by
  constructor
  · intro htr hbad
    exact update_bad_time hrole hfind htr hbad
  · intro db2 hok
    obtain ⟨_, appt2, newA, hfind2, hdb2, hid, hdate, hpat, hdoc, _, htf, htt⟩ :=
      update_ok hok
    obtain rfl : appt2 = appt := Option.some.inj (hfind2.symm.trans hfind)
    have hm := List.find?_some hfind
    obtain ⟨pre, post, hl, hpre⟩ := find?_split hfind
    have hupd := updateFirst_split (f := fun _ => newA) pre post hpre hm
    refine ⟨by rw [hdb2], pre, post, newA, hl, ?_, hid, hdate, hpat, hdoc, htf, ?_⟩
    · rw [hdb2]
      show updateFirst (apptMatch aid cu.id) (fun _ => newA) db.appointments =
        pre ++ newA :: post
      rw [hl, hupd]
    · intro t ht htr
      obtain ⟨t2, ht2, htime⟩ := htt htr
      rw [htime]
      rw [Option.some.inj (ht2.symm.trans ht)]

/-- Witness for the amended C8: a malformed non-empty time is rejected,
and the no-time acceptance changes only the status of the one appointment. -/
theorem claim8_amended_witness :
    update_appointment 1 ⟨"rejected", some "99:99"⟩ dbBooked (surajRow 1) =
      .error .invalidTime ∧
    (dbAccepted.users = dbBooked.users ∧
      ∃ pre post newA,
        dbBooked.appointments = pre ++ appt1 :: post ∧
        dbAccepted.appointments = pre ++ newA :: post ∧
        newA.id = appt1.id ∧ newA.date = appt1.date ∧
        newA.patient_id = appt1.patient_id ∧ newA.doctor_id = appt1.doctor_id ∧
        (timeTruthy (none : Option String) = false → newA.time = appt1.time) ∧
        (∀ t, parsePyTime ((none : Option String).getD "") = some t →
          timeTruthy (none : Option String) = true → newA.time = some t)) :=
  ⟨(claim8_amended 1 ⟨"rejected", some "99:99"⟩ dbBooked (surajRow 1) appt1 rfl
      (by decide)).1 (by decide) (by decide),
   (claim8_amended 1 ⟨"accepted", none⟩ dbBooked (surajRow 1) appt1 rfl
      (by decide)).2 dbAccepted (by decide)⟩

/-! ### Claim C9 -/

/-- Claim C9: after a successful signup, logging in with the same email and
password succeeds and returns the signed-up role and the new account's id;
logging in with a wrong password, or with an unregistered email, fails
Unauthenticated. -/
theorem claim9_login_roundtrip (u : UserCreate) (db db2 : DB)
    (hok : signup u db = .ok db2) :
    login ⟨u.email, u.password⟩ db2 =
      .ok { access_token := create_access_token u.email u.role,
            token_type := "bearer", role := u.role, id := db.nextUserId } ∧
    (∀ p, p ≠ u.password → login ⟨u.email, p⟩ db2 = .error .unauthenticated) ∧
    (∀ e p, (∀ x ∈ db2.users, x.email ≠ e) →
      login ⟨e, p⟩ db2 = .error .unauthenticated) := by
  obtain ⟨hdb2, hfresh, _⟩ := signup_ok hok
  have husers : db2.users = db.users ++ [mkUser db u] := by rw [hdb2]
  have hfind : db2.users.find? (fun x => x.email == u.email) = some (mkUser db u) := by
    rw [husers, find?_append_none hfresh]
    exact List.find?_cons_of_pos _ (by simp [mkUser])
  refine ⟨?_, ?_, ?_⟩
  · simp [login, hfind, mkUser, verifyPw]
  · intro p hp
    have hv : verifyPw p (mkUser db u).password = false := by
      show (hashPw u.password == hashPw p) = false
      refine beq_eq_false_iff_ne.mpr ?_
      intro hcontra
      exact hp (hashPw_inj hcontra).symm
    simp [login, hfind, hv]
  · intro e p he
    have hnone : db2.users.find? (fun x => x.email == e) = none := by
      rw [List.find?_eq_none]
      intro x hx hbe
      exact he x hx (by simpa using hbe)
    simp [login, hnone]

/-- Witness for C9: the concrete round trip for Alice, a wrong password,
and an unknown email. -/
theorem claim9_login_roundtrip_witness :
    login ⟨"alice@example.com", "pw"⟩ dbAlice =
      .ok { access_token := create_access_token "alice@example.com" "patient",
            token_type := "bearer", role := "patient", id := 2 } ∧
    login ⟨"alice@example.com", "bad"⟩ dbAlice = .error .unauthenticated ∧
    login ⟨"ghost@example.com", "pw"⟩ dbAlice = .error .unauthenticated := by
  have h := claim9_login_roundtrip aliceCreate initialDB dbAlice (by decide)
  exact ⟨h.1, h.2.1 "bad" (by decide), h.2.2 "ghost@example.com" "pw" (by decide)⟩

/-! ### Claim C10 -/

/-- Claim C10: when the owning doctor's update supplies a malformed
(non-empty) time, the request fails InvalidInput and the store is entirely
unchanged — the target appointment keeps its old status and time even
though the handler assigned the new status to the draft row before parsing
the time, because the session is closed without commit and the draft is
discarded. -/
theorem claim10_rollback (aid : Nat) (upd : AppointmentUpdate) (db : DB) (cu : User)
    (appt : Appointment) (hrole : cu.role = "doctor")
    (hfind : db.appointments.find? (apptMatch aid cu.id) = some appt)
    (htr : timeTruthy upd.time = true)
    (hbad : parsePyTime (upd.time.getD "") = none) :
    runUpdate aid upd db cu = (.error .invalidTime, db) ∧
    ∃ a ∈ (runUpdate aid upd db cu).2.appointments,
      a.id = appt.id ∧ a.status = appt.status ∧ a.time = appt.time := by
  have herr := update_bad_time hrole hfind htr hbad
  have hru : runUpdate aid upd db cu = (.error .invalidTime, db) := by
    unfold runUpdate
    rw [herr]
  refine ⟨hru, ?_⟩
  rw [hru]
  exact ⟨appt, List.mem_of_find?_eq_some hfind, rfl, rfl, rfl⟩

/-- Witness for C10: the malformed time "abc" leaves the concrete booked
store untouched, status still pending. -/
theorem claim10_rollback_witness :
    runUpdate 1 ⟨"rejected", some "abc"⟩ dbBooked (surajRow 1) =
      (.error .invalidTime, dbBooked) ∧
    ∃ a ∈ (runUpdate 1 ⟨"rejected", some "abc"⟩ dbBooked (surajRow 1)).2.appointments,
      a.id = appt1.id ∧ a.status = appt1.status ∧ a.time = appt1.time :=
  claim10_rollback 1 ⟨"rejected", some "abc"⟩ dbBooked (surajRow 1) appt1 rfl
    (by decide) (by decide) (by decide)

end DocApp
